import Mathlib

/-!
Verification development for the notes client (`src/api/client.js`,
`src/api/storage.js`, `src/App.js`).

The JavaScript code is shallowly embedded: JS runtime values that can reach
the note-normalization code are modelled by `JsVal`, the canonical note shape
by `Note`, the localStorage contents under the notes key by `Stored`, and
`Date.now()` / `makeUuid()` results are passed in explicitly as parameters.
-/

namespace NotesApp

/-- A JavaScript runtime value, restricted to the shapes the notes code
inspects.  Objects are modelled by the five fields the normalizer reads
(`id`, `title`, `content`, `createdAt`, `updatedAt`); an absent field is
`none`.  JS numbers that reach this code are integer timestamps, modelled
by `Int`. -/
inductive JsVal where
  | vUndefined
  | vNull
  | vBool (b : Bool)
  | vNum (n : Int)
  | vStr (s : String)
  | vArr (elems : List JsVal)
  | vObj (oid otitle ocontent ocreatedAt oupdatedAt : Option JsVal)
deriving Repr

/-- The canonical note shape produced by `normalizeNote`. -/
structure Note where
  id : String
  title : String
  content : String
  createdAt : Int
  updatedAt : Int
deriving Repr, DecidableEq

/-- `null` or `undefined` (the values JS `v != null` rules out and that
`Array.prototype.join` renders as the empty string). -/
def isNullish : JsVal → Bool
  | .vUndefined => true
  | .vNull => true
  | _ => false

mutual

/-- JS `String(v)` coercion.  Arrays stringify as the comma-join of their
elements, with `null`/`undefined` elements contributing the empty string
(Array.prototype.join semantics); plain objects stringify to
`"[object Object]"`. -/
def jsToString : JsVal → String
  | .vUndefined => "undefined"
  | .vNull => "null"
  | .vBool b => cond b "true" "false"
  | .vNum n => toString n
  | .vStr s => s
  | .vArr xs => String.intercalate "," (jsElemStrings xs)
  | .vObj _ _ _ _ _ => "[object Object]"

/-- Element strings under `Array.prototype.join`. -/
def jsElemStrings : List JsVal → List String
  | [] => []
  | x :: xs => (if isNullish x then "" else jsToString x) :: jsElemStrings xs

end

/-- The field-by-field body of `normalizeNote` (storage.js): `id` coerced to
string (`""` when the field is absent, `null` or `undefined`), `title`
defaulted to `"Untitled note"` unless a string, `content` defaulted to `""`,
timestamps defaulted to `now` unless numbers. -/
def normalizeFields (now : Int)
    (oid otitle ocontent ocreatedAt oupdatedAt : Option JsVal) : Note :=
  { id :=
      match oid with
      | none => ""
      | some .vUndefined => ""
      | some .vNull => ""
      | some v => jsToString v
    title := match otitle with | some (.vStr s) => s | _ => "Untitled note"
    content := match ocontent with | some (.vStr s) => s | _ => ""
    createdAt := match ocreatedAt with | some (.vNum n) => n | _ => now
    updatedAt := match oupdatedAt with | some (.vNum n) => n | _ => now }

/-- `normalizeNote` (storage.js): returns `null` for non-object input
(`!input || typeof input !== "object"`); note that in JS an array has
`typeof "object"` and is truthy, so arrays take the object path with all
five fields absent. -/
def normalizeNote (now : Int) : JsVal → Option Note
  | .vObj a b c d e => some (normalizeFields now a b c d e)
  | .vArr _ => some (normalizeFields now none none none none none)
  | _ => none

/-- Re-inject a canonical `Note` as the JS object it is at runtime (all five
fields present with their canonical types).  Used to model `JSON.stringify`
of notes and re-normalization of already-normalized values. -/
def noteToJs (n : Note) : JsVal :=
  .vObj (some (.vStr n.id)) (some (.vStr n.title)) (some (.vStr n.content))
    (some (.vNum n.createdAt)) (some (.vNum n.updatedAt))

/-- JS truthiness combined with `typeof v === "object"`, the element
pre-filter in `readNotes` (`(n) => n && typeof n === "object"`).  In JS both
plain objects and arrays satisfy it; `null` is falsy. -/
def isTruthyObject : JsVal → Bool
  | .vObj _ _ _ _ _ => true
  | .vArr _ => true
  | _ => false

/-- The contents of `localStorage` under the notes key, after the external
`getItem`/`JSON.parse` step: the key may be absent (or hold the empty
string), hold bytes that fail to parse, or hold a parsed JS value. -/
inductive Stored where
  | absent
  | malformed
  | value (v : JsVal)
deriving Repr

/-- `readNotes` (storage.js): `[]` when the key is absent, on any parse
error, or when the parsed value is not an array; otherwise the array's
elements filtered to truthy objects, mapped through `normalizeNote`, and
filtered by `(n) => n && typeof n.id === "string"`.  On the model's `Note`
type `id` is always a string, so that final filter only drops the `none`
results — which is `List.reduceOption`. -/
def readNotes (now : Int) : Stored → List Note
  | .absent => []
  | .malformed => []
  | .value v =>
      match v with
      | .vArr xs =>
          ((xs.filter isTruthyObject).map (normalizeNote now)).reduceOption
      | _ => []

/-- `writeNotes` (storage.js): serializes the note array back to storage.
`JSON.stringify` followed by `JSON.parse` is the identity on these values,
so the model stores the parsed array directly. -/
def writeNotes (notes : List Note) : Stored :=
  .value (.vArr (notes.map noteToJs))

/-- The five note fields a JS value contributes under object spread
(`{...v, ...}`): an object contributes its fields, everything else
(primitives, `null`, `undefined`, arrays without such properties)
contributes none. -/
structure RawFields where
  oid : Option JsVal
  otitle : Option JsVal
  ocontent : Option JsVal
  ocreatedAt : Option JsVal
  oupdatedAt : Option JsVal

/-- Fields contributed by `{...v}`. -/
def spreadFields : JsVal → RawFields
  | .vObj a b c d e => ⟨a, b, c, d, e⟩
  | _ => ⟨none, none, none, none, none⟩

/-- Normalized error shape `{code, message}` used across network/local
operations (client.js `normalizeError`, `throwIfNotOk`, `parseJson`). -/
structure ApiError where
  code : String
  message : String
deriving Repr, DecidableEq

/- --------------------------- Local fallback CRUD --------------------------- -/

/-- A stable sort modelling `Array.prototype.sort(comparator)`: `le a b`
stands for `comparator(a, b) <= 0`.  ES2019 requires the sort to be stable,
which this insertion sort is (an element is inserted after every element
already placed that compares `le` to it). -/
def insertSorted (le : Note → Note → Bool) (x : Note) : List Note → List Note
  | [] => [x]
  | y :: ys => if le y x then y :: insertSorted le x ys else x :: y :: ys

/-- See `insertSorted`. -/
def jsSortBy (le : Note → Note → Bool) (l : List Note) : List Note :=
  l.foldl (fun acc x => insertSorted le x acc) []

/-- `localListNotes` (client.js): `readNotes()` sorted newest-updated first
(comparator `(a, b) => (b.updatedAt || 0) - (a.updatedAt || 0)`; `x || 0` is
the identity on integers). -/
def localListNotes (now : Int) (st : Stored) : List Note :=
  jsSortBy (fun a b => b.updatedAt ≤ a.updatedAt) (readNotes now st)

/-- `localGetNote` (client.js): first stored note with the given id, else
`null`.  `String(id)` is the identity here because `id` is already a
string. -/
def localGetNote (now : Int) (id : String) (st : Stored) : Option Note :=
  (readNotes now st).find? (fun n => n.id == id)

/-- `localCreateNote` (client.js): normalizes
`{...note, id: makeUuid(), createdAt: typeof note?.createdAt === "number" ?
note.createdAt : now, updatedAt: ...}`, prepends it to the stored list,
persists, and returns it.  `uuid` is the `makeUuid()` result. -/
def localCreateNote (now : Int) (uuid : String) (note : JsVal) (st : Stored) :
    Note × Stored :=
  let f := spreadFields note
  let createdAt : Int := match f.ocreatedAt with | some (.vNum n) => n | _ => now
  let updatedAt : Int := match f.oupdatedAt with | some (.vNum n) => n | _ => now
  let normalized := normalizeFields now (some (.vStr uuid)) f.otitle f.ocontent
    (some (.vNum createdAt)) (some (.vNum updatedAt))
  let existing := readNotes now st
  (normalized, writeNotes (normalized :: existing))

/-- The note built by `localUpdateNote` for the entry `cur` found at the
matching index: `normalizeNote({...current, ...partial, id: sid,
updatedAt: now})`.  The later spread entries win, so `id` and `updatedAt`
are forced regardless of what the patch carries. -/
def mergedUpdate (now : Int) (id : String) (patch : JsVal) (cur : Note) : Note :=
  let p := spreadFields patch
  normalizeFields now
    (some (.vStr id))
    (match p.otitle with | some v => some v | none => some (.vStr cur.title))
    (match p.ocontent with | some v => some v | none => some (.vStr cur.content))
    (match p.ocreatedAt with | some v => some v | none => some (.vNum cur.createdAt))
    (some (.vNum now))

/-- `localUpdateNote` (client.js): finds the stored note by id (`findIndex`);
returns `null` leaving storage untouched when absent; otherwise replaces the
entry at that index with the merged, re-normalized note, persists, and
returns it. -/
def localUpdateNote (now : Int) (id : String) (patch : JsVal) (st : Stored) :
    Option Note × Stored :=
  let notes := readNotes now st
  match notes.findIdx? (fun n => n.id == id) with
  | none => (none, st)
  | some idx =>
      match notes[idx]? with
      | none => (none, st)
      | some cur =>
          let updated := mergedUpdate now id patch cur
          (some updated, writeNotes (notes.set idx updated))

/-- `localDeleteNote` (client.js): `false` (storage untouched) when no stored
note matches the id, else persists the list with the matching notes removed
and returns `true`. -/
def localDeleteNote (now : Int) (id : String) (st : Stored) : Bool × Stored :=
  let notes := readNotes now st
  if notes.any (fun n => n.id == id) then
    (true, writeNotes (notes.filter (fun n => !(n.id == id))))
  else
    (false, st)

/- ------------------------------ Network CRUD ------------------------------ -/

/-- Outcome of the network phase of `backendCreateNote`: either some step
(`safeFetch`, `throwIfNotOk`, `parseJson`) threw a normalized error, or a
2xx response produced a parsed payload (`vNull` for an empty body). -/
inductive CreateResp where
  | failure (e : ApiError)
  | payload (data : JsVal)

/-- The note `backendCreateNote` fabricates when the 2xx payload lacks a
usable id: `normalizeNote({ ...note, id: makeUuid() })`. -/
def fabricatedNote (now : Int) (uuid : String) (note : JsVal) : Note :=
  let f := spreadFields note
  normalizeFields now (some (.vStr uuid)) f.otitle f.ocontent f.ocreatedAt f.oupdatedAt

/-- `backendCreateNote` (client.js:237-247): propagates any thrown normalized
error; on a 2xx payload returns `normalizeNote(data)` when it is truthy with
a truthy (non-empty string) id, and otherwise returns
`normalizeNote({ ...note, id: makeUuid() })`. -/
def backendCreateNote (now : Int) (uuid : String) (note : JsVal)
    (resp : CreateResp) : Except ApiError Note :=
  match resp with
  | .failure e => .error e
  | .payload data =>
      match normalizeNote now data with
      | some created =>
          if created.id == "" then .ok (fabricatedNote now uuid note)
          else .ok created
      | none => .ok (fabricatedNote now uuid note)

/- ------------------------------- Public API ------------------------------ -/

/-- `listNotes` (client.js:274-286).  `cfg` is whether `computeBaseUrl()`
returned a base URL; `remote` is the outcome of the awaited
`backendListNotes` call (`.error` when it threw).  On success every id is
re-coerced with `String(n.id)` (`jsToString` of a string). -/
def listNotes (cfg : Bool) (remote : Except ApiError (List Note)) (now : Int)
    (st : Stored) : List Note :=
  if cfg = false then localListNotes now st
  else
    match remote with
    | .ok r => r.map (fun n => { n with id := jsToString (.vStr n.id) })
    | .error _ => localListNotes now st

/-- `getNote` (client.js:289-300). -/
def getNote (cfg : Bool) (remote : Except ApiError (Option Note)) (id : String)
    (now : Int) (st : Stored) : Option Note :=
  if cfg = false then localGetNote now id st
  else
    match remote with
    | .ok (some r) => some { r with id := jsToString (.vStr r.id) }
    | .ok none => none
    | .error _ => localGetNote now id st

/-- `createNote` (client.js:303-317): gated by configuration, attempts
`backendCreateNote` and falls back to `localCreateNote` when it throws. -/
def createNote (cfg : Bool) (resp : CreateResp) (note : JsVal) (now : Int)
    (uuid : String) (st : Stored) : Note × Stored :=
  if cfg = false then localCreateNote now uuid note st
  else
    match backendCreateNote now uuid note resp with
    | .ok created => ({ created with id := jsToString (.vStr created.id) }, st)
    | .error _ => localCreateNote now uuid note st

/-- `updateNote` (client.js:320-333). -/
def updateNote (cfg : Bool) (remote : Except ApiError (Option Note))
    (id : String) (patch : JsVal) (now : Int) (st : Stored) :
    Option Note × Stored :=
  if cfg = false then localUpdateNote now id patch st
  else
    match remote with
    | .ok (some u) => (some { u with id := jsToString (.vStr u.id) }, st)
    | .ok none => (none, st)
    | .error _ => localUpdateNote now id patch st

/-- `deleteNote` (client.js:336-348). -/
def deleteNote (cfg : Bool) (remote : Except ApiError Bool) (id : String)
    (now : Int) (st : Stored) : Bool × Stored :=
  if cfg = false then localDeleteNote now id st
  else
    match remote with
    | .ok b => (b, st)
    | .error _ => localDeleteNote now id st

/- ------------------------------- App helpers ------------------------------ -/

/-- JS `String.prototype.trim`: strip leading and trailing whitespace. -/
def jsTrim (s : String) : String :=
  String.mk (((s.data.dropWhile Char.isWhitespace).reverse.dropWhile
    Char.isWhitespace).reverse)

/-- ASCII lowering of one character (the `toLowerCase` behavior on the
ASCII titles involved). -/
def lowerChar (c : Char) : Char :=
  if 'A' ≤ c ∧ c ≤ 'Z' then Char.ofNat (c.toNat + 32) else c

/-- JS `String.prototype.toLowerCase` (ASCII). -/
def jsToLower (s : String) : String :=
  String.mk (s.data.map lowerChar)

/-- `normalizeTitle` (App.js): trims, substituting `"Untitled note"` for an
empty result. -/
def normalizeTitle (title : String) : String :=
  let t := jsTrim title
  if t = "" then "Untitled note" else t

/-- The title `NoteListItem` (App.js) renders:
`(note.title || "Untitled note").trim() || "Untitled note"`. -/
def displayTitle (n : Note) : String :=
  let t := jsTrim (if n.title = "" then "Untitled note" else n.title)
  if t = "" then "Untitled note" else t

/-- The `SortOrder` union of App.js. -/
inductive SortOrder where
  | updated_desc
  | created_desc
  | title_asc
deriving Repr, DecidableEq

/-- The key `sortNotes` compares under `title_asc`:
`((t.title || "").trim() || "Untitled note").toLowerCase()`. -/
def titleSortKey (n : Note) : String :=
  let t := jsTrim n.title
  jsToLower (if t = "" then "Untitled note" else t)

/-- Lexicographic order on character lists. -/
def charListLt : List Char → List Char → Bool
  | [], [] => false
  | [], _ :: _ => true
  | _ :: _, [] => false
  | a :: as, b :: bs =>
      if a < b then true else if b < a then false else charListLt as bs

/-- `localeCompare` modelled as the lexicographic string order (adequate for
the ASCII strings involved). -/
def strCompare (a b : String) : Int :=
  if charListLt a.data b.data then -1
  else if charListLt b.data a.data then 1
  else 0

/-- `sortNotes` (App.js:1144-1153): the `Array.sort` comparator — newest
created first, case-insensitive title with empty titles replaced by the
sentinel, or (default) newest updated first.  `x || 0` is the identity on
integer timestamps. -/
def sortNotes (a b : Note) (order : SortOrder) : Int :=
  match order with
  | .created_desc => b.createdAt - a.createdAt
  | .title_asc => strCompare (titleSortKey a) (titleSortKey b)
  | .updated_desc => b.updatedAt - a.updatedAt

/-- `[...baseFiltered].sort((a, b) => sortNotes(a, b, sortOrder))`
(App.js:196). -/
def sortedNotes (notes : List Note) (order : SortOrder) : List Note :=
  jsSortBy (fun a b => sortNotes a b order ≤ 0) notes

/-- The in-memory collection and the selected id, the state the App
component owns. -/
structure SessionState where
  notes : List Note
  selectedId : Option String
deriving Repr, DecidableEq

/-- The selection-maintenance effect (App.js:206-215): empty collection
clears the selection; a missing or stale selected id falls back to the first
element; otherwise the selection is kept. -/
def reconcileSelection (notes : List Note) (sel : Option String) : Option String :=
  match notes with
  | [] => none
  | first :: _ =>
      match sel with
      | none => some first.id
      | some sid =>
          if notes.any (fun n => n.id == sid) then some sid else some first.id

/-- Whether the selected id is `null` exactly when the collection is empty
and otherwise names a present note — the §3/§8 selection invariant. -/
def selectionInvariant (st : SessionState) : Prop :=
  match st.selectedId with
  | none => st.notes = []
  | some sid => st.notes.any (fun n => n.id == sid) = true

/-- A collection mutation: the optimistic part of `createNewNote` (prepend
and select the new note) or of `confirmDeleteSelected` (filter the id out),
each followed by the App.js:206-215 selection-maintenance effect. -/
inductive CollOp where
  | create (n : Note)
  | delete (id : String)

/-- Apply one mutation and re-establish the selection. -/
def applyCollOp (st : SessionState) (op : CollOp) : SessionState :=
  match op with
  | .create n =>
      let notes := n :: st.notes
      { notes := notes, selectedId := reconcileSelection notes (some n.id) }
  | .delete i =>
      let notes := st.notes.filter (fun n => !(n.id == i))
      { notes := notes, selectedId := reconcileSelection notes st.selectedId }

/-- A sequence of create/delete mutations. -/
def runCollOps (st : SessionState) (ops : List CollOp) : SessionState :=
  ops.foldl applyCollOp st

/-- `confirmDeleteSelected` (App.js:278-311) together with the selection
effect that runs after each `setNotes`: look up the selected note (no-op
when there is none), snapshot it, optimistically filter it out (selection
falls back via the effect), then fold in the awaited `deleteNote` result —
`true` confirms the delete, while `false` or a thrown error re-inserts the
snapshot at the head and raises the `"Could not delete note."` banner (the
returned `Bool`). -/
def confirmDeleteSelected (st : SessionState) (result : Except ApiError Bool) :
    SessionState × Bool :=
  let selectedNote : Option Note :=
    match st.selectedId with
    | none => none
    | some sid => st.notes.find? (fun n => n.id == sid)
  match selectedNote with
  | none => (st, false)
  | some snapshot =>
      let idToDelete := snapshot.id
      let notes1 := st.notes.filter (fun n => !(n.id == idToDelete))
      let sel1 := reconcileSelection notes1 st.selectedId
      match result with
      | .ok true => (⟨notes1, sel1⟩, false)
      | .ok false =>
          let notes2 := snapshot :: notes1
          (⟨notes2, reconcileSelection notes2 sel1⟩, true)
      | .error _ =>
          let notes2 := snapshot :: notes1
          (⟨notes2, reconcileSelection notes2 sel1⟩, true)

/- ------------------------------ Debounce model ---------------------------- -/

/-- `AUTOSAVE_DEBOUNCE_MS` (App.js). -/
def AUTOSAVE_DEBOUNCE_MS : Int := 450

/-- One keystroke: the draft values passed to `scheduleAutosave` and the
`Date.now()` at which it ran. -/
structure EditEv where
  time : Int
  title : String
  content : String

/-- The payload of one persist call issued by the autosave timer callback:
`updateNote(selectedId, { title: normalizeTitle(title), content, ... })`. -/
structure SaveCall where
  title : String
  content : String
deriving Repr, DecidableEq

/-- A pending `setTimeout` handle: when it would fire and the draft values
its closure captured. -/
structure TimerState where
  deadline : Int
  title : String
  content : String

/-- The persist call the timer callback makes when it fires. -/
def firePayload (tm : TimerState) : SaveCall :=
  ⟨normalizeTitle tm.title, tm.content⟩

/-- Process a sequence of edits against `scheduleAutosave` (App.js:347-412):
a pending timer whose deadline is reached before the next edit fires (one
persist call); otherwise the edit's `clearTimeout` cancels it.  Either way
the edit schedules a fresh timer `AUTOSAVE_DEBOUNCE_MS` after itself
carrying its own draft values.  Returns the persist calls issued during the
edits and the timer still pending afterwards. -/
def stepEdits : Option TimerState → List EditEv → List SaveCall × Option TimerState
  | tm, [] => ([], tm)
  | tm, e :: rest =>
      let fired : List SaveCall :=
        match tm with
        | some t => if t.deadline ≤ e.time then [firePayload t] else []
        | none => []
      let next := stepEdits (some ⟨e.time + AUTOSAVE_DEBOUNCE_MS, e.title, e.content⟩) rest
      (fired ++ next.1, next.2)

/-- All persist calls produced by a burst of edits starting with no pending
timer, once enough quiet time passes afterwards for the final timer to
fire. -/
def runEdits (es : List EditEv) : List SaveCall :=
  let r := stepEdits none es
  r.1 ++ (match r.2 with | some t => [firePayload t] | none => [])

/-- The JS value the `normalizeNote` call returns: `null` or the canonical
object, for feeding back into a second `normalizeNote`. -/
def normalizeJs (now : Int) (x : JsVal) : JsVal :=
  match normalizeNote now x with
  | none => .vNull
  | some n => noteToJs n

/-- Sample note titled `"banana"`. -/
def nBanana : Note := ⟨"banana-1", "banana", "", 0, 0⟩

/-- Sample note titled `"Apple"`. -/
def nApple : Note := ⟨"apple-1", "Apple", "", 0, 0⟩

/-- Sample note with the empty title. -/
def nUntitled : Note := ⟨"untitled-1", "", "", 0, 0⟩

/-- Sample note A. -/
def nA : Note := ⟨"idA", "A", "contentA", 0, 0⟩

/-- Sample note B. -/
def nB : Note := ⟨"idB", "B", "contentB", 1, 1⟩

/- -------------------------------- Theorems ------------------------------- -/

/-- Re-normalizing an already canonical note is the identity. -/
theorem normalizeNote_noteToJs (now : Int) (n : Note) :
    normalizeNote now (noteToJs n) = some n := by
  cases n
  rfl

/-- On an array payload, `readNotes` keeps the object-typed elements and
maps them through `normalizeNote`. -/
theorem readNotes_value_arr (now : Int) (xs : List JsVal) :
    readNotes now (.value (.vArr xs)) =
      (xs.filter isTruthyObject).filterMap (normalizeNote now) := by
  simp [readNotes, List.reduceOption, List.filterMap_map]

/-- C1 counterexample: on a 2xx response with a `null` payload (no usable
id), `backendCreateNote` does not fail over — it succeeds, silently
inventing the fresh local id `"uuid-1"` for the note built from the request
body.  The claim says this outcome is treated as a failure requiring local
fallback; it is not. -/
theorem backendCreateNote_invents_id_cex :
    backendCreateNote 0 "uuid-1" (.vObj none (some (.vStr "hi")) none none none)
      (.payload .vNull) =
      .ok { id := "uuid-1", title := "hi", content := "", createdAt := 0, updatedAt := 0 } := by
  rfl

/-- C1 (amended): whenever a 2xx create payload lacks a usable id (it does
not normalize to a note, or normalizes to one whose id is the empty
string), `backendCreateNote` returns success with
`normalizeNote({ ...note, id: makeUuid() })` — a note carrying the freshly
invented local id — instead of treating the outcome as a failure. -/
theorem backendCreateNote_fabricates (now : Int) (uuid : String) (note data : JsVal)
    (h : ∀ n, normalizeNote now data = some n → n.id = "") :
    backendCreateNote now uuid note (.payload data) =
      .ok (fabricatedNote now uuid note) ∧
    (fabricatedNote now uuid note).id = uuid := by
  constructor
  · cases hn : normalizeNote now data with
    | none => simp [backendCreateNote, hn]
    | some n =>
        have hid := h n hn
        simp [backendCreateNote, hn, hid]
  · simp [fabricatedNote, normalizeFields, jsToString]

/-- Witness for C1's amended theorem at a concrete input. -/
theorem backendCreateNote_fabricates_witness :
    backendCreateNote 0 "u1" (.vObj none (some (.vStr "t")) none none none)
      (.payload (.vStr "not an object")) =
      .ok (fabricatedNote 0 "u1" (.vObj none (some (.vStr "t")) none none none)) ∧
    (fabricatedNote 0 "u1" (.vObj none (some (.vStr "t")) none none none)).id = "u1" :=
  backendCreateNote_fabricates 0 "u1" _ (.vStr "not an object")
    (fun _ h => Option.noConfusion h)

/-- C2: with a backend configured, if the remote attempt of any of the five
public operations throws a normalized error, the operation returns exactly
what the corresponding localStorage operation returns (and applies its
storage effect). -/
theorem fallback_totality (now : Int) (uuid : String) (st : Stored) (e : ApiError)
    (id : String) (note patch : JsVal) :
    listNotes true (.error e) now st = localListNotes now st ∧
    getNote true (.error e) id now st = localGetNote now id st ∧
    createNote true (.failure e) note now uuid st = localCreateNote now uuid note st ∧
    updateNote true (.error e) id patch now st = localUpdateNote now id patch st ∧
    deleteNote true (.error e) id now st = localDeleteNote now id st :=
  ⟨rfl, rfl, rfl, rfl, rfl⟩

/-- C3 counterexample: a persisted array holding one object with no `id`
field does not have that element dropped — `readNotes` returns it with the
empty-string id (the final filter only checks `typeof id === "string"`,
which the normalizer guarantees). -/
theorem readNotes_retains_empty_id_cex :
    readNotes 0 (Stored.value (.vArr [.vObj none none none none none])) =
      [{ id := "", title := "Untitled note", content := "", createdAt := 0, updatedAt := 0 }] ∧
    (readNotes 0 (Stored.value (.vArr [.vObj none none none none none]))).any
      (fun n => n.id == "") = true := by
  constructor <;> rfl

/-- C3 (amended): `readNotes` yields `[]` for an absent key, a parse
failure, or a non-array payload; on an array it keeps exactly the
object-typed elements, each passed through `normalizeNote` — elements whose
id normalizes to the empty string are retained, not dropped. -/
theorem readNotes_spec (now : Int) :
    readNotes now .absent = [] ∧
    readNotes now .malformed = [] ∧
    (∀ v : JsVal, (∀ xs, v ≠ JsVal.vArr xs) → readNotes now (.value v) = []) ∧
    (∀ xs, readNotes now (.value (.vArr xs)) =
      (xs.filter isTruthyObject).filterMap (normalizeNote now)) := by
  refine ⟨rfl, rfl, ?_, readNotes_value_arr now⟩
  intro v hv
  cases v with
  | vArr xs => exact absurd rfl (hv xs)
  | vUndefined => rfl
  | vNull => rfl
  | vBool b => rfl
  | vNum n => rfl
  | vStr s => rfl
  | vObj a b c d e => rfl

/-- Witness for C3's amended theorem at a concrete input. -/
theorem readNotes_spec_witness :
    readNotes 3 .absent = [] ∧
    readNotes 3 .malformed = [] ∧
    readNotes 3 (.value (.vNum 7)) = [] ∧
    readNotes 3 (.value (.vArr [.vNull, .vObj none none none none none])) =
      ([.vNull, .vObj none none none none none].filter isTruthyObject).filterMap
        (normalizeNote 3) :=
  ⟨(readNotes_spec 3).1, (readNotes_spec 3).2.1,
   (readNotes_spec 3).2.2.1 (.vNum 7) (fun _ h => JsVal.noConfusion h),
   (readNotes_spec 3).2.2.2 [.vNull, .vObj none none none none none]⟩

/-- C4: `normalizeNote` is idempotent — re-normalizing the value a first
normalization returned (at any later time) gives the same result — and
every non-object input yields `null`, never an error. -/
theorem normalizeNote_idempotent (now later : Int) (x : JsVal) :
    normalizeNote later (normalizeJs now x) = normalizeNote now x ∧
    (isTruthyObject x = false → normalizeNote now x = none) := by
  constructor
  · cases hx : normalizeNote now x with
    | none =>
        unfold normalizeJs
        rw [hx]
        rfl
    | some n =>
        unfold normalizeJs
        rw [hx]
        exact normalizeNote_noteToJs later n
  · intro hobj
    cases x with
    | vObj a b c d e => simp [isTruthyObject] at hobj
    | vArr xs => simp [isTruthyObject] at hobj
    | vUndefined => rfl
    | vNull => rfl
    | vBool b => rfl
    | vNum n => rfl
    | vStr s => rfl

/-- Witness for C4 at a concrete input. -/
theorem normalizeNote_idempotent_witness :
    normalizeNote 9 (normalizeJs 2 (.vStr "raw")) = normalizeNote 2 (.vStr "raw") ∧
    normalizeNote 2 (.vStr "raw") = none :=
  ⟨(normalizeNote_idempotent 2 9 (.vStr "raw")).1,
   (normalizeNote_idempotent 2 9 (.vStr "raw")).2 rfl⟩

/-- C8: sorting notes titled `"banana"`, `"Apple"`, `""` under `title_asc`
orders them `"Apple"`, `"banana"`, untitled-last — the comparison is
case-insensitive and the empty title is replaced by the `"Untitled note"`
sentinel before comparing — and the rendered titles read `"Apple"`,
`"banana"`, `"Untitled note"`. -/
theorem sort_title_asc_scenario :
    sortedNotes [nBanana, nApple, nUntitled] .title_asc =
      [nApple, nBanana, nUntitled] ∧
    (sortedNotes [nBanana, nApple, nUntitled] .title_asc).map displayTitle =
      ["Apple", "banana", "Untitled note"] := by
  constructor <;> decide

/-- C9: writing any list of canonical notes and reading it back returns the
same list (localStorage set/get assumed to succeed, which `Stored.value`
models).  On the model's `Note` type every value is canonical — equal to
its own `normalizeNote` image with a string id (`normalizeNote_noteToJs`). -/
theorem readNotes_writeNotes_roundtrip (now : Int) (notes : List Note) :
    readNotes now (writeNotes notes) = notes := by
  rw [writeNotes, readNotes_value_arr]
  have hfilter : (notes.map noteToJs).filter isTruthyObject = notes.map noteToJs := by
    rw [List.filter_eq_self]
    intro a ha
    obtain ⟨n, _, rfl⟩ := List.mem_map.mp ha
    rfl
  rw [hfilter, List.filterMap_map]
  have hcomp : (normalizeNote now ∘ noteToJs) = some := by
    funext n
    exact normalizeNote_noteToJs now n
  rw [hcomp, List.filterMap_some]

/-- The selection-maintenance effect establishes the selection invariant
from any collection and any previous selection. -/
theorem reconcileSelection_invariant (notes : List Note) (sel : Option String) :
    selectionInvariant ⟨notes, reconcileSelection notes sel⟩ := by
  cases notes with
  | nil => cases sel <;> rfl
  | cons first rest =>
      cases sel with
      | none => simp [reconcileSelection, selectionInvariant]
      | some sid =>
          by_cases h : ((first :: rest).any (fun n => n.id == sid)) = true
          · simp [reconcileSelection, selectionInvariant, h]
          · simp only [reconcileSelection, selectionInvariant, h, if_neg]
            simp

/-- Every create/delete mutation re-establishes the selection invariant. -/
theorem applyCollOp_invariant (st : SessionState) (op : CollOp) :
    selectionInvariant (applyCollOp st op) := by
  cases op with
  | create n => exact reconcileSelection_invariant _ _
  | delete i => exact reconcileSelection_invariant _ _

/-- C5: after any sequence of create and delete mutations the selected id is
`null` exactly when the collection is empty and otherwise names a present
note; and when the previously selected id is gone from a nonempty
collection the selection falls back to the first element. -/
theorem selection_invariant_after_ops (st : SessionState) (ops : List CollOp)
    (h : selectionInvariant st) :
    selectionInvariant (runCollOps st ops) ∧
    (∀ (first : Note) (rest : List Note) (sid : String),
      ((first :: rest).any (fun n => n.id == sid)) = false →
      reconcileSelection (first :: rest) (some sid) = some first.id) := by
  constructor
  · induction ops generalizing st with
    | nil => exact h
    | cons op ops ih => exact ih (applyCollOp st op) (applyCollOp_invariant st op)
  · intro first rest sid hgone
    simp [reconcileSelection, hgone]

/-- Witness for C5 at a concrete state and mutation sequence. -/
theorem selection_invariant_after_ops_witness :
    selectionInvariant ⟨[], none⟩ ∧
    (selectionInvariant
        (runCollOps ⟨[], none⟩ [.create nA, .create nB, .delete "idB"]) ∧
     (∀ (first : Note) (rest : List Note) (sid : String),
       ((first :: rest).any (fun n => n.id == sid)) = false →
       reconcileSelection (first :: rest) (some sid) = some first.id)) :=
  ⟨rfl, selection_invariant_after_ops ⟨[], none⟩ [.create nA, .create nB, .delete "idB"] rfl⟩

/-- C6: from the 2-note collection `[A, B]` with `B` selected, the
confirmed delete optimistically removes `B` and selects `A`; when the
delete call resolves `false`, `B` is re-inserted at the head, `A` stays
selected and the failure banner is raised; when it resolves `true` nothing
further changes. -/
theorem delete_restore_scenario (A B : Note) (h : A.id ≠ B.id) :
    confirmDeleteSelected ⟨[A, B], some B.id⟩ (.ok false) =
      (⟨[B, A], some A.id⟩, true) ∧
    confirmDeleteSelected ⟨[A, B], some B.id⟩ (.ok true) =
      (⟨[A], some A.id⟩, false) := by
  have hab : (A.id == B.id) = false := by
    simp [h]
  have hba : (B.id == A.id) = false := by
    simp [Ne.symm h]
  constructor <;>
    simp [confirmDeleteSelected, reconcileSelection, hab, hba, List.find?,
      List.filter, List.any]

/-- Witness for C6 at concrete notes. -/
theorem delete_restore_scenario_witness :
    nA.id ≠ nB.id ∧
    (confirmDeleteSelected ⟨[nA, nB], some nB.id⟩ (.ok false) =
        (⟨[nB, nA], some nA.id⟩, true) ∧
     confirmDeleteSelected ⟨[nA, nB], some nB.id⟩ (.ok true) =
        (⟨[nA], some nA.id⟩, false)) :=
  ⟨by decide, delete_restore_scenario nA nB (by decide)⟩

/-- While every next edit arrives before the pending deadline, no timer
fires during the burst and the pending timer carries the last edit's
values. -/
theorem stepEdits_rapid (e : EditEv) (rest : List EditEv) (last : EditEv)
    (hlast : (e :: rest).getLast? = some last)
    (hchain : List.Chain'
      (fun a b => a.time ≤ b.time ∧ b.time < a.time + AUTOSAVE_DEBOUNCE_MS)
      (e :: rest)) :
    stepEdits (some ⟨e.time + AUTOSAVE_DEBOUNCE_MS, e.title, e.content⟩) rest =
      ([], some ⟨last.time + AUTOSAVE_DEBOUNCE_MS, last.title, last.content⟩) := by
  induction rest generalizing e with
  | nil =>
      simp only [List.getLast?_singleton, Option.some_inj] at hlast
      subst hlast
      rfl
  | cons f rest ih =>
      have hef : e.time ≤ f.time ∧ f.time < e.time + AUTOSAVE_DEBOUNCE_MS :=
        (List.chain'_cons.mp hchain).1
      have hchain' := (List.chain'_cons.mp hchain).2
      have hlast' : (f :: rest).getLast? = some last := by
        rw [← List.getLast?_cons_cons]
        exact hlast
      have hlt : ¬ (e.time + AUTOSAVE_DEBOUNCE_MS ≤ f.time) := not_le.mpr hef.2
      simp only [stepEdits]
      rw [if_neg hlt]
      simpa using ih f hlast' hchain'

/-- C7: for a burst of edits to the selected note in which every edit
arrives within less than the 450ms quiet interval after the previous one
(each cancelling the previously scheduled timer before scheduling its own),
exactly one persist call occurs, and it carries the last edit's draft
values (title as the timer callback normalizes it). -/
theorem debounce_coalesces (e : EditEv) (rest : List EditEv) (last : EditEv)
    (hlast : (e :: rest).getLast? = some last)
    (hchain : List.Chain'
      (fun a b => a.time ≤ b.time ∧ b.time < a.time + AUTOSAVE_DEBOUNCE_MS)
      (e :: rest)) :
    runEdits (e :: rest) = [⟨normalizeTitle last.title, last.content⟩] := by
  unfold runEdits
  simp only [stepEdits]
  rw [stepEdits_rapid e rest last hlast hchain]
  rfl

/-- Witness for C7 at a concrete three-edit burst. -/
theorem debounce_coalesces_witness :
    ([⟨0, "d", "x"⟩, ⟨100, "dr", "xy"⟩, (⟨440, " draft ", "xyz"⟩ : EditEv)].getLast? =
      some ⟨440, " draft ", "xyz"⟩) ∧
    List.Chain' (fun a b => a.time ≤ b.time ∧ b.time < a.time + AUTOSAVE_DEBOUNCE_MS)
      [⟨0, "d", "x"⟩, ⟨100, "dr", "xy"⟩, (⟨440, " draft ", "xyz"⟩ : EditEv)] ∧
    runEdits [⟨0, "d", "x"⟩, ⟨100, "dr", "xy"⟩, (⟨440, " draft ", "xyz"⟩ : EditEv)] =
      [⟨normalizeTitle " draft ", "xyz"⟩] :=
  ⟨rfl, by simp [List.chain'_cons, AUTOSAVE_DEBOUNCE_MS],
   debounce_coalesces ⟨0, "d", "x"⟩ [⟨100, "dr", "xy"⟩, ⟨440, " draft ", "xyz"⟩]
     ⟨440, " draft ", "xyz"⟩ rfl
     (by simp [List.chain'_cons, AUTOSAVE_DEBOUNCE_MS])⟩

/-- C10: when the stored list holds a note with the given id (first match at
`idx`, entry `cur`) and the patch carries no `createdAt`, `localUpdateNote`
returns the merged note and rewrites storage with only the entry at `idx`
replaced (all other entries and the order untouched); the merged note keeps
the id and `cur`'s `createdAt`, and its `updatedAt` is the call time even
when the patch supplies its own `updatedAt`. -/
theorem localUpdateNote_frame (now : Int) (id : String) (patch : JsVal)
    (st : Stored) (idx : Nat) (cur : Note)
    (hidx : (readNotes now st).findIdx? (fun n => n.id == id) = some idx)
    (hcur : (readNotes now st)[idx]? = some cur)
    (hnocr : (spreadFields patch).ocreatedAt = none) :
    localUpdateNote now id patch st =
      (some (mergedUpdate now id patch cur),
       writeNotes ((readNotes now st).set idx (mergedUpdate now id patch cur))) ∧
    (mergedUpdate now id patch cur).id = id ∧
    (mergedUpdate now id patch cur).createdAt = cur.createdAt ∧
    (mergedUpdate now id patch cur).updatedAt = now := by
  refine ⟨?_, ?_, ?_, rfl⟩
  · simp [localUpdateNote, hidx, hcur]
  · simp [mergedUpdate, normalizeFields, jsToString]
  · simp [mergedUpdate, normalizeFields, hnocr]

/-- Witness for C10: a two-note store, a patch that changes the title and
tries to smuggle in `updatedAt: 99`. -/
theorem localUpdateNote_frame_witness :
    ((readNotes 5 (writeNotes [nA, nB])).findIdx? (fun n => n.id == "idB") = some 1) ∧
    ((readNotes 5 (writeNotes [nA, nB]))[1]? = some nB) ∧
    ((spreadFields (.vObj none (some (.vStr "new")) none none (some (.vNum 99)))).ocreatedAt
      = none) ∧
    (localUpdateNote 5 "idB" (.vObj none (some (.vStr "new")) none none (some (.vNum 99)))
        (writeNotes [nA, nB]) =
      (some (mergedUpdate 5 "idB" (.vObj none (some (.vStr "new")) none none (some (.vNum 99))) nB),
       writeNotes ((readNotes 5 (writeNotes [nA, nB])).set 1
         (mergedUpdate 5 "idB" (.vObj none (some (.vStr "new")) none none (some (.vNum 99))) nB))) ∧
     (mergedUpdate 5 "idB" (.vObj none (some (.vStr "new")) none none (some (.vNum 99))) nB).id = "idB" ∧
     (mergedUpdate 5 "idB" (.vObj none (some (.vStr "new")) none none (some (.vNum 99))) nB).createdAt = nB.createdAt ∧
     (mergedUpdate 5 "idB" (.vObj none (some (.vStr "new")) none none (some (.vNum 99))) nB).updatedAt = 5) :=
  ⟨by decide, by decide, rfl,
   localUpdateNote_frame 5 "idB" (.vObj none (some (.vStr "new")) none none (some (.vNum 99)))
     (writeNotes [nA, nB]) 1 nB (by decide) (by decide) rfl⟩

end NotesApp
